import Mathlib

/-!
Verification of the receipt-text extraction engine of the bookkeepingrender
repository.  The engine is the `parseReceiptText` function (consolidated
version, `src/unnamed/part_003` lines 721-779 = `src/unnamed/part_004`
lines 283-339 plus the bare `MM/DD` rule).  The JavaScript regular
expressions are embedded by a small backtracking matcher with JavaScript
semantics: leftmost starting position wins, alternatives are tried left to
right, quantifiers are greedy and backtrack, `\b` is an ASCII word
boundary, `\s` is the JavaScript whitespace class.
-/

namespace Bookkee

/-- JavaScript whitespace (`\s` class, also the set trimmed by `trim`). -/
def jsWsCh (c : Char) : Bool :=
  let v := c.toNat
  v == 9 || v == 10 || v == 11 || v == 12 || v == 13 || v == 32 ||
  v == 0xa0 || v == 0x1680 || (0x2000 ≤ v && v ≤ 0x200a) ||
  v == 0x2028 || v == 0x2029 || v == 0x202f || v == 0x205f ||
  v == 0x3000 || v == 0xfeff

/-- ASCII digit, the `\d` / `[0-9]` class. -/
def digitCh (c : Char) : Bool := '0' ≤ c && c ≤ '9'

/-- The `[/.-]` delimiter class of the date rules (dash is last, hence literal). -/
def delimCh (c : Char) : Bool := c == '/' || c == '.' || c == '-'

/-- The `[¥\\#￥]` currency-marker class of the amount rules. -/
def yenCh (c : Char) : Bool := c == '¥' || c == '\\' || c == '#' || c == '￥'

/-- The `[0-9,]` class: digits and thousands separators. -/
def digitCommaCh (c : Char) : Bool := digitCh c || c == ','

/-- The slash-dash-年-dot class of the notes exclusion pattern.  In a
JavaScript character class the dash between `/` and `年` denotes the
code-point range U+002F..U+5E74; the dot is a separate literal member. -/
def e3Ch (c : Char) : Bool :=
  (0x2f ≤ c.toNat && c.toNat ≤ 0x5e74) || c == '.'

/-- JavaScript `\w` (word character) used by the `\b` assertion. -/
def isWordCh (c : Char) : Bool :=
  ('A' ≤ c && c ≤ 'Z') || ('a' ≤ c && c ≤ 'z') || digitCh c || c == '_'

def isWordO : Option Char → Bool
  | some c => isWordCh c
  | none => false

/-- One item of a regular-expression sequence.  The source's patterns only
quantify single character classes, so quantifiers live on classes. -/
inductive RI where
  /-- greedy quantified character class `p{lo,hi}` (`hi = none` is unbounded) -/
  | cls (p : Char → Bool) (lo : Nat) (hi : Option Nat)
  /-- capturing group around a greedy quantified class -/
  | grp (idx : Nat) (p : Char → Bool) (lo : Nat) (hi : Option Nat)
  /-- literal string -/
  | lit (l : List Char)
  /-- non-capturing alternation of literal strings, tried left to right -/
  | alts (ls : List (List Char))
  /-- the `\b` word-boundary assertion -/
  | wb

/-- Captured groups: group index paired with the captured characters. -/
abbrev Caps := List (Nat × List Char)

/-- Length of the maximal prefix of `s` whose characters satisfy `p`. -/
def runLen (p : Char → Bool) : List Char → Nat
  | [] => 0
  | c :: cs => if p c then runLen p cs + 1 else 0

/-- Greedy backtracking over repetition counts: try `lo + n`, `lo + n - 1`,
down to `lo`, returning the first success. -/
def tryDown (f : Nat → Option α) (lo : Nat) : Nat → Option α
  | 0 => f lo
  | n + 1 =>
    match f (lo + n + 1) with
    | some r => some r
    | none => tryDown f lo n

/-- Strip a literal from the front of the input. -/
def dropLit : List Char → List Char → Option (List Char)
  | [], s => some s
  | _ :: _, [] => none
  | c :: cs, d :: ds => if c == d then dropLit cs ds else none

/-- Last character of `consumed`, falling back to the previous context
character (used to evaluate `\b`). -/
def lastCh (prev : Option Char) (consumed : List Char) : Option Char :=
  match consumed.getLast? with
  | some c => some c
  | none => prev

/-- Match a single item at the current point, calling the continuation on
every admissible way of consuming input, most-greedy first. -/
def matchItem (ri : RI) (prev : Option Char) (s : List Char) (caps : Caps)
    (cont : Option Char → List Char → Caps → Option Caps) : Option Caps :=
  match ri with
  | .wb => if isWordO prev != isWordO s.head? then cont prev s caps else none
  | .lit l =>
    match dropLit l s with
    | some s2 => cont (lastCh prev l) s2 caps
    | none => none
  | .alts ls =>
    ls.findSome? fun l =>
      match dropLit l s with
      | some s2 => cont (lastCh prev l) s2 caps
      | none => none
  | .cls p lo hi =>
    let r := runLen p s
    let m := match hi with | some h => min r h | none => r
    if m < lo then none
    else tryDown (fun k => cont (lastCh prev (s.take k)) (s.drop k) caps) lo (m - lo)
  | .grp i p lo hi =>
    let r := runLen p s
    let m := match hi with | some h => min r h | none => r
    if m < lo then none
    else tryDown
      (fun k => cont (lastCh prev (s.take k)) (s.drop k) ((i, s.take k) :: caps))
      lo (m - lo)

/-- Match a sequence of items with full backtracking between items. -/
def matchSeq : List RI → Option Char → List Char → Caps →
    (Option Char → List Char → Caps → Option Caps) → Option Caps
  | [], prev, s, caps, cont => cont prev s caps
  | ri :: rest, prev, s, caps, cont =>
    matchItem ri prev s caps fun p2 s2 c2 => matchSeq rest p2 s2 c2 cont

/-- Search for the pattern (an alternation of item sequences) starting at
successive positions: the leftmost matching position wins, and at a given
position the alternatives are tried in order — JavaScript `String.match`
semantics.  Returns the captures of the successful alternative. -/
def reSearchAux (alts : List (List RI)) : Option Char → List Char → Option Caps
  | prev, [] =>
    alts.findSome? fun items => matchSeq items prev [] [] fun _ _ c => some c
  | prev, c :: cs =>
    match alts.findSome? fun items =>
        matchSeq items prev (c :: cs) [] fun _ _ cp => some cp with
    | some caps => some caps
    | none => reSearchAux alts (some c) cs

def reSearch (alts : List (List RI)) (s : List Char) : Option Caps :=
  reSearchAux alts none s

/-- JavaScript `RegExp.test`. -/
def reTest (alts : List (List RI)) (s : List Char) : Bool :=
  (reSearch alts s).isSome

/-- Captured group `i`, defaulting to the empty capture. -/
def capGet (caps : Caps) (i : Nat) : List Char :=
  (caps.findSome? fun p => if p.1 == i then some p.2 else none).getD []

/-- Captured group `i` when present. -/
def capOpt (caps : Caps) (i : Nat) : Option (List Char) :=
  caps.findSome? fun p => if p.1 == i then some p.2 else none

/-! ## Line normalization -/

/-- JavaScript `text.split('\n')` on the character list. -/
def splitNl : List Char → List (List Char)
  | [] => [[]]
  | c :: cs =>
    if c == '\n' then [] :: splitNl cs
    else
      match splitNl cs with
      | r :: rs => (c :: r) :: rs
      | [] => [[c]]

/-- JavaScript `String.trim`. -/
def jsTrimL (l : List Char) : List Char :=
  ((l.dropWhile jsWsCh).reverse.dropWhile jsWsCh).reverse

/-- JavaScript `String.length`: UTF-16 code units (astral characters count
twice). -/
def jsLenL : List Char → Nat
  | [] => 0
  | c :: cs => (if 0x10000 ≤ c.toNat then 2 else 1) + jsLenL cs

def jsLen (s : String) : Nat := jsLenL s.data

/-- `text.split('\n').map(trim).filter(length > 0)` — the Line Normalizer. -/
def normLines (t : String) : List String :=
  (splitNl t.data).filterMap fun l =>
    let l2 := jsTrimL l
    if l2.isEmpty then none else some ⟨l2⟩

/-! ## Date rule table -/

/-- Clock observations the source makes through `new Date()`: the current
calendar year (`getFullYear`) and the first ten characters of the ISO
timestamp (`toISOString().slice(0, 10)`). -/
structure Env where
  year : Nat
  todayISO : String
deriving DecidableEq, Repr

/-- Value of a digit string, as `parseInt(·, 10)` computes it on all-digit
input. -/
def digitsToNat (l : List Char) : Nat :=
  l.foldl (fun n c => n * 10 + (c.toNat - 48)) 0

/-- JavaScript `padStart(2, '0')`. -/
def pad2 (l : List Char) : List Char :=
  if 2 ≤ l.length then l else List.replicate (2 - l.length) '0' ++ l

/-- Assemble the canonical `YYYY-MM-DD` string from year, month and day
fragments. -/
def dstr (y m d : List Char) : String :=
  ⟨y ++ '-' :: m ++ '-' :: d⟩

/-- One entry of the source's `dateFormats` table: group name, pattern, and
the formatter run on a successful match. -/
structure DateFormat where
  group : String
  pattern : List RI
  formatter : Env → Caps → String

/-- The source's `dateFormats` table, in its order (which is the rule
priority, highest first). -/
def dateFormats : List DateFormat := [
  -- (\d{4})年\s*(\d{1,2})月\s*(\d{1,2})日
  ⟨"YYYY年MM月DD日",
    [.grp 1 digitCh 4 (some 4), .lit ['年'], .cls jsWsCh 0 none,
     .grp 2 digitCh 1 (some 2), .lit ['月'], .cls jsWsCh 0 none,
     .grp 3 digitCh 1 (some 2), .lit ['日']],
    fun _ caps => dstr (capGet caps 1) (pad2 (capGet caps 2)) (pad2 (capGet caps 3))⟩,
  -- (\d{4})[/.-](\d{1,2})[/.-](\d{1,2})
  ⟨"YYYY/MM/DD",
    [.grp 1 digitCh 4 (some 4), .cls delimCh 1 (some 1),
     .grp 2 digitCh 1 (some 2), .cls delimCh 1 (some 1),
     .grp 3 digitCh 1 (some 2)],
    fun _ caps => dstr (capGet caps 1) (pad2 (capGet caps 2)) (pad2 (capGet caps 3))⟩,
  -- (\d{1,2})[/.-](\d{1,2})[/.-](\d{4})
  ⟨"MM/DD/YYYY",
    [.grp 1 digitCh 1 (some 2), .cls delimCh 1 (some 1),
     .grp 2 digitCh 1 (some 2), .cls delimCh 1 (some 1),
     .grp 3 digitCh 4 (some 4)],
    fun _ caps => dstr (capGet caps 3) (pad2 (capGet caps 1)) (pad2 (capGet caps 2))⟩,
  -- \b(\d{2})[/.-](\d{1,2})[/.-](\d{1,2})\b  with two-digit-year windowing
  ⟨"YY/MM/DD",
    [.wb, .grp 1 digitCh 2 (some 2), .cls delimCh 1 (some 1),
     .grp 2 digitCh 1 (some 2), .cls delimCh 1 (some 1),
     .grp 3 digitCh 1 (some 2), .wb],
    fun _ caps =>
      let y := digitsToNat (capGet caps 1)
      dstr (Nat.repr ((if 50 < y then 1900 else 2000) + y)).data
        (pad2 (capGet caps 2)) (pad2 (capGet caps 3))⟩,
  -- \b(\d{1,2})[/.-](\d{1,2})\b  with the current year substituted
  ⟨"MM/DD",
    [.wb, .grp 1 digitCh 1 (some 2), .cls delimCh 1 (some 1),
     .grp 2 digitCh 1 (some 2), .wb],
    fun env caps =>
      dstr (Nat.repr env.year).data (pad2 (capGet caps 1)) (pad2 (capGet caps 2))⟩]

/-- Inner loop of the date scan: the first rule (in table order) matching
the line yields the formatted date. -/
def lineDate (env : Env) (line : String) : Option String :=
  dateFormats.findSome? fun f =>
    (reSearch [f.pattern] line.data).map (f.formatter env)

/-! ## Amount pattern -/

/-- The three alternatives of the source's `amountRegex`, in order:
keyword-anchored, currency-symbol-anchored, and 円-suffixed. -/
def amountAlts : List (List RI) := [
  -- (?:合計|小計|ご請求額)[\s]*[¥\\#￥]?[\s]*([0-9,]{2,})
  [.alts [['合', '計'], ['小', '計'], ['ご', '請', '求', '額']],
   .cls jsWsCh 0 none, .cls yenCh 0 (some 1), .cls jsWsCh 0 none,
   .grp 1 digitCommaCh 2 none],
  -- [¥\\#￥][\s]*([0-9,]{3,})
  [.cls yenCh 1 (some 1), .cls jsWsCh 0 none, .grp 2 digitCommaCh 3 none],
  -- ([0-9,]{3,})[\s]*円
  [.grp 3 digitCommaCh 3 none, .cls jsWsCh 0 none, .lit ['円']]]

/-- Digit group of an amount match, chosen as the source's
`match[1] || match[2] || match[3]`, commas stripped, then `parseInt`; a
digit-free group gives `NaN` and hence no candidate. -/
def ampCapValue (caps : Caps) : Option Nat :=
  match (capOpt caps 1).orElse (fun _ => (capOpt caps 2).orElse
      (fun _ => capOpt caps 3)) with
  | none => none
  | some str =>
    let ds := str.filter fun c => c != ','
    if ds.isEmpty then none else some (digitsToNat ds)

/-- Amount candidate of one line: first match of the combined `amountRegex`
(all three alternatives at once), then the digit-group value. -/
def lineAmount (line : String) : Option Nat :=
  match reSearch amountAlts line.data with
  | none => none
  | some caps => ampCapValue caps

/-! ## Notes patterns -/

/-- The `storeKeywords` alternation: 店|施設|（株）|株式会社|商店|食堂|マート|ストア. -/
def storeAlts : List (List RI) := [
  [.lit ['店']], [.lit ['施', '設']], [.lit ['（', '株', '）']],
  [.lit ['株', '式', '会', '社']], [.lit ['商', '店']], [.lit ['食', '堂']],
  [.lit ['マ', 'ー', 'ト']], [.lit ['ス', 'ト', 'ア']]]

/-- The `exclusionKeywords` alternation:
領収書 | 領収証 | [0-9]{2,} followed by one slash-dash-年-dot class character |
an optional currency marker followed by [0-9,]{3,}. -/
def exclusionAlts : List (List RI) := [
  [.lit ['領', '収', '書']],
  [.lit ['領', '収', '証']],
  [.cls digitCh 2 none, .cls e3Ch 1 (some 1)],
  [.cls yenCh 0 (some 1), .cls digitCommaCh 3 none]]

/-- The notes acceptance test of the source: plausible length (in UTF-16
code units, as `line.length` computes), a store keyword present, no
exclusion pattern present. -/
def notesOK (line : String) : Bool :=
  decide (1 < jsLen line) && decide (jsLen line < 30) &&
  reTest storeAlts line.data && !reTest exclusionAlts line.data

/-! ## The extraction function -/

/-- The mutable state of the source's `forEach` loop. -/
structure LoopState where
  date : Option String
  maxAmount : Nat
  notes : Option String
deriving DecidableEq, Repr

/-- Body of the `forEach` over lines: fill the date on first hit, keep the
running maximum amount, accept the first qualifying notes line among the
first six. -/
def stepLine (env : Env) (st : LoopState) (idx : Nat) (line : String) : LoopState :=
  let d := match st.date with
    | some d0 => some d0
    | none => lineDate env line
  let m := match lineAmount line with
    | some a => if st.maxAmount < a then a else st.maxAmount
    | none => st.maxAmount
  let n := match st.notes with
    | some n0 => some n0
    | none => if idx < 6 && notesOK line then some line else none
  ⟨d, m, n⟩

/-- The `forEach` over the normalized lines, with its running index. -/
def loop (env : Env) : List String → Nat → LoopState → LoopState
  | [], _, st => st
  | l :: ls, idx, st => loop env ls (idx + 1) (stepLine env st idx l)

/-- The extraction result record `{date, amount, notes}`; `none` is the
source's `null`. -/
structure ParseResult where
  date : Option String
  amount : Option Nat
  notes : Option String
deriving DecidableEq, Repr

/-- The consolidated `parseReceiptText` (src/unnamed/part_003 lines
721-779): early all-null return on absent or empty input, normalization,
one pass over the lines, then the positive-maximum amount gate and the
current-date fallback. -/
def parseReceiptText (env : Env) (text : Option String) : ParseResult :=
  match text with
  | none => ⟨none, none, none⟩
  | some t =>
    if t = "" then ⟨none, none, none⟩
    else
      let lines := normLines t
      let st := loop env lines 0 ⟨none, 0, none⟩
      ⟨some (st.date.getD env.todayISO),
       if 0 < st.maxAmount then some st.maxAmount else none,
       st.notes⟩

/-- The `isValidDate` calendar check of the variant implementation in
src/unnamed/part_003 lines 212-228 (month 1..12, day within the month's
day count, leap-year February); the consolidated `parseReceiptText` never
calls it. -/
def isValidDate (y m d : Nat) : Bool :=
  if m < 1 || 12 < m || d < 1 || 31 < d then false
  else
    let daysInMonth := [31, 28, 31, 30, 31, 30, 31, 31, 30, 31, 30, 31]
    let isLeapYear := (y % 4 == 0 && y % 100 != 0) || y % 400 == 0
    let dim := if m == 2 && isLeapYear then 29 else daysInMonth.getD (m - 1) 0
    decide (d ≤ dim)

/-- A concrete clock: current year 2025, current date 2025-10-11. -/
def env0 : Env := ⟨2025, "2025-10-11"⟩

/-! ## Characterizations used by the theorems -/

/-- Maximum of a list of naturals (0 when empty). -/
def listMax (l : List Nat) : Nat := l.foldr max 0

/-- First qualifying notes line, scanning with the running index: the
closed form of the notes component of the loop. -/
def notesFind : List String → Nat → Option String
  | [], _ => none
  | l :: ls, idx => if idx < 6 && notesOK l then some l else notesFind ls (idx + 1)

/-- Modelled from the spec (§4.3 Amount Extractor), for comparison with the
source: "scan every normalized line; for each line, try, in any order, a
small set of amount-recognition patterns" — each of the three patterns is
applied to each line independently, each contributing its own candidate,
rather than one combined first match per line. -/
def specAmountCandidates (lines : List String) : List Nat :=
  lines.flatMap fun l =>
    amountAlts.filterMap fun pat =>
      match reSearch [pat] l.data with
      | none => none
      | some caps => ampCapValue caps

/-- Modelled from the spec (§4.3): "across all lines and all pattern
matches, the largest valid integer found is selected as the result; if no
candidate is found, amount is absent". -/
def specAmountMax (t : String) : Option Nat :=
  let c := specAmountCandidates (normLines t)
  if c.isEmpty then none else some (listMax c)

/-- The two-digit decimal rendering of `y < 100`. -/
def twoDigitStr (y : Nat) : String :=
  ⟨[Char.ofNat (48 + y / 10), Char.ofNat (48 + y % 10)]⟩

/-- A receipt line whose only token is a delimiter-separated date with a
leading two-digit year: `YY/1/1`. -/
def yyInput (y : Nat) : String := twoDigitStr y ++ "/1/1"

/-! ## Loop characterizations -/

theorem listMax_cons (a : Nat) (t : List Nat) :
    listMax (a :: t) = max a (listMax t) := rfl

/-- The date component of the loop is the first `lineDate` hit. -/
theorem loop_date (env : Env) : ∀ (ls : List String) (idx : Nat) (st : LoopState),
    (loop env ls idx st).date
      = (match st.date with
          | some d => some d
          | none => ls.findSome? (lineDate env)) := by
  intro ls
  induction ls with
  | nil => rintro idx ⟨d, m, n⟩; cases d <;> simp [loop]
  | cons l ls ih =>
    rintro idx ⟨d, m, n⟩
    rw [loop, ih]
    cases d with
    | some d0 => simp [stepLine]
    | none =>
      simp only [stepLine, List.findSome?]
      cases lineDate env l <;> simp

/-- The running maximum of the loop is the maximum of the per-line amount
candidates. -/
theorem loop_max (env : Env) : ∀ (ls : List String) (idx : Nat) (st : LoopState),
    (loop env ls idx st).maxAmount
      = max st.maxAmount (listMax (ls.filterMap lineAmount)) := by
  intro ls
  induction ls with
  | nil => rintro idx ⟨d, m, n⟩; simp [loop, listMax]
  | cons l ls ih =>
    rintro idx ⟨d, m, n⟩
    rw [loop, ih]
    cases h : lineAmount l with
    | none => simp [stepLine, h, List.filterMap_cons]
    | some a =>
      simp only [stepLine, h, List.filterMap_cons]
      rw [listMax_cons]
      show max (if m < a then a else m) _ = _
      have h1 : (if m < a then a else m) = max m a := by
        rcases Nat.lt_or_ge m a with hlt | hge
        · rw [if_pos hlt, Nat.max_eq_right (Nat.le_of_lt hlt)]
        · rw [if_neg (Nat.not_lt.2 hge), Nat.max_eq_left hge]
      rw [h1, Nat.max_assoc]

/-- The notes component of the loop is the first qualifying line among the
first six. -/
theorem loop_notes (env : Env) : ∀ (ls : List String) (idx : Nat) (st : LoopState),
    (loop env ls idx st).notes
      = (match st.notes with
          | some n => some n
          | none => notesFind ls idx) := by
  intro ls
  induction ls with
  | nil => rintro idx ⟨d, m, n⟩; cases n <;> simp [loop, notesFind]
  | cons l ls ih =>
    rintro idx ⟨d, m, n⟩
    rw [loop, ih]
    cases n with
    | some n0 => simp [stepLine]
    | none =>
      simp only [stepLine, notesFind]
      by_cases hc : (decide (idx < 6) && notesOK l) = true
      · simp only [hc, if_true]
      · simp only [Bool.not_eq_true] at hc
        simp [hc]

/-- Whatever `notesFind` returns satisfies the acceptance test and lies in
the window of lines it scanned. -/
theorem notesFind_mem : ∀ (ls : List String) (idx : Nat) (n : String),
    notesFind ls idx = some n → notesOK n = true ∧ n ∈ ls.take (6 - idx) := by
  intro ls
  induction ls with
  | nil => intro idx n h; simp [notesFind] at h
  | cons l ls ih =>
    intro idx n h
    rw [notesFind] at h
    by_cases hc : (decide (idx < 6) && notesOK l) = true
    · rw [if_pos hc] at h
      injection h with hln
      subst hln
      rw [Bool.and_eq_true, decide_eq_true_eq] at hc
      refine ⟨hc.2, ?_⟩
      obtain ⟨k, hk⟩ : ∃ k, 6 - idx = k + 1 := ⟨5 - idx, by omega⟩
      rw [hk, List.take_succ_cons]
      exact List.mem_cons_self _ _
    · rw [if_neg hc] at h
      obtain ⟨hok, hmem⟩ := ih (idx + 1) n h
      refine ⟨hok, ?_⟩
      by_cases h6 : idx < 6
      · obtain ⟨k, hk1, hk2⟩ : ∃ k, 6 - idx = k + 1 ∧ 6 - (idx + 1) = k :=
          ⟨5 - idx, by omega, by omega⟩
        rw [hk1, List.take_succ_cons]
        rw [hk2] at hmem
        exact List.mem_cons_of_mem _ hmem
      · have h0 : 6 - (idx + 1) = 0 := by omega
        rw [h0] at hmem
        simp at hmem

/-- Closed form of the extraction on any non-empty input string. -/
theorem parse_some_eq (env : Env) (s : String) (hs : s ≠ "") :
    parseReceiptText env (some s)
      = ⟨some (((normLines s).findSome? (lineDate env)).getD env.todayISO),
         if 0 < listMax ((normLines s).filterMap lineAmount)
         then some (listMax ((normLines s).filterMap lineAmount)) else none,
         notesFind (normLines s) 0⟩ := by
  have h0 : parseReceiptText env (some s)
      = ⟨some ((loop env (normLines s) 0 ⟨none, 0, none⟩).date.getD env.todayISO),
         if 0 < (loop env (normLines s) 0 ⟨none, 0, none⟩).maxAmount
         then some (loop env (normLines s) 0 ⟨none, 0, none⟩).maxAmount else none,
         (loop env (normLines s) 0 ⟨none, 0, none⟩).notes⟩ := by
    unfold parseReceiptText
    dsimp only
    rw [if_neg hs]
  rw [h0, loop_date, loop_max, loop_notes]
  norm_num

/-! ## Claims -/

/-- Claim C1, counterexample: on the empty string the extraction function
returns a null date, not the current date, so the claimed all-default
result (today's date) does not hold. -/
theorem c1_empty_input_counterexample :
    (parseReceiptText env0 (some "")).date = none ∧
    (none : Option String) ≠ some env0.todayISO := by
  exact ⟨rfl, by decide⟩

/-- Claim C1 (amended): for empty or absent input, the extraction function
returns the all-null result — date, amount and notes all absent; the
current-date substitution is applied only to non-empty input. -/
theorem c1_empty_or_absent_all_null (env : Env) (t : Option String)
    (h : t = none ∨ t = some "") :
    parseReceiptText env t = ⟨none, none, none⟩ := by
  rcases h with h | h <;> subst h <;> rfl

/-- Claim C1, witness for the amended theorem at the empty string. -/
theorem c1_empty_or_absent_all_null_witness :
    parseReceiptText env0 (some "") = ⟨none, none, none⟩ :=
  c1_empty_or_absent_all_null env0 (some "") (Or.inr rfl)

/-- Claim C2: the consolidated extraction function performs no calendar
validation — the input `2024/13/40` (month 13, day 40) is accepted and
reported as the date `2024-13-40`, although the repository's own
`isValidDate` helper rejects it. -/
theorem c2_accepts_calendar_invalid_date :
    (parseReceiptText env0 (some "2024/13/40")).date = some "2024-13-40" ∧
    isValidDate 2024 13 40 = false := by
  exact ⟨by decide, by decide⟩

/-- Claim C3, counterexample: on the single line `¥300 合計 ¥500` only the
first match of the combined amount pattern is considered, giving amount
300, while the maximum candidate across all three patterns (per the spec's
amount extractor) is 500. -/
theorem c3_first_match_shadows_counterexample :
    (parseReceiptText env0 (some "¥300 合計 ¥500")).amount = some 300 ∧
    specAmountMax "¥300 合計 ¥500" = some 500 ∧
    (parseReceiptText env0 (some "¥300 合計 ¥500")).amount
      ≠ specAmountMax "¥300 合計 ¥500" := by
  exact ⟨by decide, by decide, by decide⟩

/-- Claim C3 (amended): each line contributes at most one candidate — the
first match of the combined amount pattern — and the amount is the maximum
of these per-line candidates when that maximum is positive, absent
otherwise. -/
theorem c3_amount_is_max_of_line_candidates (env : Env) (s : String) :
    (parseReceiptText env (some s)).amount
      = (if 0 < listMax ((normLines s).filterMap lineAmount)
         then some (listMax ((normLines s).filterMap lineAmount)) else none) := by
  by_cases hs : s = ""
  · subst hs; rfl
  · rw [parse_some_eq env s hs]

/-- Claim C4, counterexample: a two-digit year of exactly 50 resolves to
2050, not 1950 — the windowing inequality is strict. -/
theorem c4_fifty_counterexample :
    (parseReceiptText env0 (some "50/1/1")).date = some "2050-01-01" ∧
    some "2050-01-01" ≠ some "1950-01-01" := by
  exact ⟨by decide, by decide⟩

/-- Claim C4 (amended): for every two-digit year value, a value strictly
greater than 50 is expanded to 1900+value and any other value (50
included) to 2000+value, end to end through the extraction function. -/
theorem c4_two_digit_year_windowing : ∀ y : Nat, y < 100 →
    (parseReceiptText env0 (some (yyInput y))).date
      = some (Nat.repr ((if 50 < y then 1900 else 2000) + y) ++ "-01-01") := by
  decide

/-- Claim C4, witness for the amended theorem at the boundary value 50. -/
theorem c4_two_digit_year_windowing_witness :
    (parseReceiptText env0 (some (yyInput 50))).date
      = some (Nat.repr ((if 50 < 50 then 1900 else 2000) + 50) ++ "-01-01") :=
  c4_two_digit_year_windowing 50 (by decide)

/-- Claim C5: on any non-empty input the date is the first hit obtained by
scanning lines in document order and, within each line, the date rule
table in its priority order (`lineDate` tries `dateFormats` front to
back), with the current date substituted when no rule hits; in particular
on `1999/09/10` the four-digit-year rule beats the bare month/day rule,
which would have produced a 2025 date under `env0`. -/
theorem c5_first_date_in_scan_order :
    (∀ (env : Env) (s : String), s ≠ "" →
      (parseReceiptText env (some s)).date
        = some (((normLines s).findSome? (lineDate env)).getD env.todayISO))
    ∧ (parseReceiptText env0 (some "1999/09/10")).date = some "1999-09-10" := by
  constructor
  · intro env s hs
    rw [parse_some_eq env s hs]
  · decide

/-- Claim C5, witness at a concrete non-empty input. -/
theorem c5_first_date_in_scan_order_witness :
    (parseReceiptText env0 (some "2024/1/2")).date
      = some (((normLines "2024/1/2").findSome? (lineDate env0)).getD env0.todayISO) :=
  c5_first_date_in_scan_order.1 env0 "2024/1/2" (by decide)

/-- Claim C6, counterexample: on `09/10/25` + `TOTAL $50` the extraction
does not return the claimed date 2025-09-10, amount 50. -/
theorem c6_scenario_counterexample :
    parseReceiptText env0 (some "09/10/25\nTOTAL $50")
      ≠ ⟨some "2025-09-10", some 50, none⟩ := by
  decide

/-- Claim C6 (amended): on this input the two-digit-year rule reads the
leading field as the year (09 → 2009), giving date `2009-10-25`, and the
amount is absent because neither `TOTAL` nor `$` is a recognized marker. -/
theorem c6_scenario_actual :
    parseReceiptText env0 (some "09/10/25\nTOTAL $50")
      = ⟨some "2009-10-25", none, none⟩ := by
  decide

/-- Claim C7, counterexample: on `9-10` + `金額 3,000` the amount is
absent, not 3000 — `金額` is not one of the recognized total keywords and
no currency marker or 円 suffix is present. -/
theorem c7_amount_counterexample :
    (parseReceiptText env0 (some "9-10\n金額 3,000")).amount = none ∧
    (none : Option Nat) ≠ some 3000 := by
  exact ⟨by decide, by decide⟩

/-- Claim C7 (amended): with current year 2025, the bare month/day rule
(lowest priority) gives date `2025-09-10` on this input, while the amount
and notes stay absent. -/
theorem c7_bare_month_day_scenario :
    parseReceiptText env0 (some "9-10\n金額 3,000")
      = ⟨some "2025-09-10", none, none⟩ ∧ env0.year = 2025 := by
  exact ⟨by decide, rfl⟩

/-- Claim C8: for every clock and every input (absent or any string) the
extraction function evaluates to a well-formed three-field record, and a
present amount is strictly positive. -/
theorem c8_total_and_well_formed (env : Env) (t : Option String) :
    ∃ d a n, parseReceiptText env t = ⟨d, a, n⟩ ∧ 0 < a.getD 1 := by
  have hpos : 0 < (parseReceiptText env t).amount.getD 1 := by
    rcases t with _ | s
    · have he : (parseReceiptText env none).amount = none := rfl
      rw [he]
      decide
    · by_cases hs : s = ""
      · subst hs
        have he : (parseReceiptText env (some "")).amount = none := rfl
        rw [he]
        decide
      · rw [parse_some_eq env s hs]
        dsimp only
        split
        · next h => simpa using h
        · simp
  exact ⟨_, _, _, rfl, hpos⟩

/-- Claim C9, counterexample: two invocations on the identical text at
different times (different clock observations) yield different results —
the no-date fallback substitutes the current date. -/
theorem c9_time_dependence_counterexample :
    parseReceiptText ⟨2025, "2025-10-11"⟩ (some "x")
      ≠ parseReceiptText ⟨2025, "2025-10-12"⟩ (some "x") := by
  decide

/-- Claim C9 (amended): extraction is deterministic given the clock, and
the amount and notes fields are fully time-independent; only the date
field consults the clock (bare month/day rule and the no-date fallback). -/
theorem c9_amount_notes_time_independent (e1 e2 : Env) (t : Option String) :
    (parseReceiptText e1 t).amount = (parseReceiptText e2 t).amount ∧
    (parseReceiptText e1 t).notes = (parseReceiptText e2 t).notes := by
  rcases t with _ | s
  · exact ⟨rfl, rfl⟩
  · by_cases hs : s = ""
    · subst hs; exact ⟨rfl, rfl⟩
    · rw [parse_some_eq e1 s hs, parse_some_eq e2 s hs]
      exact ⟨rfl, rfl⟩

/-- Claim C10: whenever the notes field is present it has length strictly
between 1 and 30 (in UTF-16 code units, the source's `length`) and equals
one of the first six normalized lines of the input. -/
theorem c10_notes_invariant (env : Env) (s n : String)
    (h : (parseReceiptText env (some s)).notes = some n) :
    1 < jsLen n ∧ jsLen n < 30 ∧ n ∈ (normLines s).take 6 := by
  by_cases hs : s = ""
  · rw [hs] at h
    have he : (parseReceiptText env (some "")).notes = none := rfl
    rw [he] at h
    exact absurd h (by simp)
  · rw [parse_some_eq env s hs] at h
    dsimp only at h
    obtain ⟨hok, hmem⟩ := notesFind_mem (normLines s) 0 n h
    unfold notesOK at hok
    simp only [Bool.and_eq_true, decide_eq_true_eq] at hok
    exact ⟨hok.1.1.1, hok.1.1.2, by simpa using hmem⟩

/-- Claim C10, witness: a merchant line containing 食堂 is accepted as
notes and satisfies the bounds. -/
theorem c10_notes_invariant_witness :
    1 < jsLen "さくら食堂" ∧ jsLen "さくら食堂" < 30 ∧
    "さくら食堂" ∈ (normLines "さくら食堂").take 6 :=
  c10_notes_invariant env0 "さくら食堂" "さくら食堂" (by decide)

end Bookkee



